import Mathlib

/-
Verification model of the `code-analyze` static analyzer (src/main.rs).

The Rust source is shallowly embedded: each Rust function becomes a Lean
function of the same name operating on `List Char` / `String` data.  The
regular-expression texts of the rule catalog are transcribed as terms of a
small regex syntax `RE`; an executable matcher `reIsMatch` implements the
search semantics of `Regex::is_match` (a match may start at any position;
`\b` is a word boundary, `^`/`$` anchor at the ends of the haystack).
Character classes (`\s`, `\d`, `\w`, `.`) are modelled on their ASCII
meaning; all inputs considered here are ASCII apart from the fixed Russian
message strings, which never reach a pattern.

Crucially, `Regex::new` of the `regex` crate rejects look-around, and the
`magic-number` pattern (main.rs:185-201) contains three negative
look-aheads `(?!...)`.  Compilation is therefore modelled as a partial
operation `Regex.new : RE → Option RE`; `TextRule::new`, whose `.unwrap()`
panics on a rejected pattern, becomes `TextRule.new : ... → Option
TextRule`, and `get_text_rules`, which builds the ten rules, is `none`:
the real program panics while constructing rule 10, before any file is
analyzed.  `analyze_path` calls `get_text_rules` first and is accordingly
`Option`-valued, with `none` modelling the startup panic.  The per-file
functions (`analyze_file` and below), which in the source take the rule
slice as a parameter, stay parametric in the rule list.
-/

/-- Word characters, the `\w` class and the base of `\b` word boundaries. -/
def isWordChar (c : Char) : Bool :=
  c.isAlpha || c.isDigit || c = '_'

/-- Whitespace, the `\s` class; also the character set trimmed by
`str::trim` (ASCII part). -/
def isWsChar (c : Char) : Bool :=
  c = ' ' || c = '\t' || c = '\n' || c = '\x0b' || c = '\x0c' || c = '\r'

/-- Decimal digits, the `\d` class. -/
def isDigitChar (c : Char) : Bool := c.isDigit

/-- The `.` class: any character except a newline. -/
def notNlChar (c : Char) : Bool := !(c = '\n')

/-- Bool test that `l` starts with `pre` (model of `str::starts_with`). -/
def startsWithL : List Char → List Char → Bool
  | [], _ => true
  | _ :: _, [] => false
  | c :: cs, d :: ds => c == d && startsWithL cs ds

/-- Bool test that `needle` occurs as a contiguous substring of the second
argument (model of `str::contains` with a string pattern). -/
def containsSub (needle : List Char) : List Char → Bool
  | [] => startsWithL needle []
  | c :: t => startsWithL needle (c :: t) || containsSub needle t

/-- Model of `str::trim`: drop whitespace from both ends. -/
def trimChars (l : List Char) : List Char :=
  ((l.dropWhile isWsChar).reverse.dropWhile isWsChar).reverse

/-- Split a character list at every newline character. -/
def splitNl : List Char → List (List Char)
  | [] => [[]]
  | c :: r =>
    if c = '\n' then [] :: splitNl r
    else
      match splitNl r with
      | [] => [[c]]
      | h :: t => (c :: h) :: t

/-- Drop one trailing carriage return, as `str::lines` does for `\r\n`
line endings. -/
def stripCr (l : List Char) : List Char :=
  if l.getLast? = some '\r' then l.dropLast else l

/-- Model of `str::lines`: split at `\n`, drop the empty fragment produced
by a trailing newline (the final line ending is optional, and the empty
string has no lines), and strip one trailing `\r` from each line. -/
def rustLines (content : String) : List (List Char) :=
  let parts := splitNl content.data
  let parts2 := if parts.getLast? = some [] then parts.dropLast else parts
  parts2.map stripCr

/-- Model of `str::to_lowercase` (ASCII part). -/
def toLowerStr (s : String) : String :=
  String.mk (s.data.map Char.toLower)

/-- Syntax of the regular expressions occurring in the source: literal
strings, single-character classes with bounded or unbounded repetition,
sequencing, alternation, option, word boundaries, anchors, and negative
lookahead. -/
inductive RE where
  | eps : RE
  | lit : List Char → RE
  | cls : (Char → Bool) → RE
  | seq : RE → RE → RE
  | alt : RE → RE → RE
  | opt : RE → RE
  | starCls : (Char → Bool) → RE
  | plusCls : (Char → Bool) → RE
  | repCls : (Char → Bool) → Nat → Nat → RE
  | atLeastCls : (Char → Bool) → Nat → RE
  | wordB : RE
  | bol : RE
  | eol : RE
  | notAhead : RE → RE

/-- A position is a word boundary when exactly one of the neighbouring
characters is a word character; outside the haystack counts as non-word. -/
def isBoundary (p : Option Char) (l : List Char) : Bool :=
  let pw := match p with | some c => isWordChar c | none => false
  let nw := match l with | c :: _ => isWordChar c | [] => false
  pw != nw

/-- Match a literal string, then continue with `k`.  The continuation
receives the character preceding the rest of the input (for boundary
tests) and the remaining input. -/
def litK : List Char → Option Char → List Char → (Option Char → List Char → Bool) → Bool
  | [], p, l, k => k p l
  | _ :: _, _, [], _ => false
  | c :: cs, _, d :: ds, k => c == d && litK cs (some d) ds k

/-- Match zero or more characters of class `q`, trying every count
(existential semantics of `q*`), then continue with `k`. -/
def starK (q : Char → Bool) (k : Option Char → List Char → Bool) :
    Option Char → List Char → Bool
  | p, [] => k p []
  | p, c :: r => k p (c :: r) || (q c && starK q k (some c) r)

/-- Match exactly `n` characters of class `q`, then continue with `k`. -/
def exactK (q : Char → Bool) (k : Option Char → List Char → Bool) :
    Nat → Option Char → List Char → Bool
  | 0, p, l => k p l
  | _ + 1, _, [] => false
  | n + 1, _, c :: r => q c && exactK q k n (some c) r

/-- Match at most `n` characters of class `q`, trying every count, then
continue with `k`. -/
def upToK (q : Char → Bool) (k : Option Char → List Char → Bool) :
    Nat → Option Char → List Char → Bool
  | 0, p, l => k p l
  | _ + 1, p, [] => k p []
  | n + 1, p, c :: r => k p (c :: r) || (q c && upToK q k n (some c) r)

/-- Continuation-passing matcher: `mtch r p l k` decides whether some prefix
of `l` matches `r` (with `p` the character just before `l`, for boundary
tests) such that `k` accepts the rest. -/
def mtch : RE → Option Char → List Char → (Option Char → List Char → Bool) → Bool
  | .eps, p, l, k => k p l
  | .lit s, p, l, k => litK s p l k
  | .cls _, _, [], _ => false
  | .cls q, _, c :: r, k => q c && k (some c) r
  | .seq a b, p, l, k => mtch a p l (fun p2 l2 => mtch b p2 l2 k)
  | .alt a b, p, l, k => mtch a p l k || mtch b p l k
  | .opt a, p, l, k => mtch a p l k || k p l
  | .starCls q, p, l, k => starK q k p l
  | .plusCls _, _, [], _ => false
  | .plusCls q, _, c :: r, k => q c && starK q k (some c) r
  | .repCls q m n, p, l, k => exactK q (fun p2 l2 => upToK q k (n - m) p2 l2) m p l
  | .atLeastCls q m, p, l, k => exactK q (fun p2 l2 => starK q k p2 l2) m p l
  | .wordB, p, l, k => isBoundary p l && k p l
  | .bol, p, l, k => p.isNone && k p l
  | .eol, p, l, k => l.isEmpty && k p l
  | .notAhead a, p, l, k => !(mtch a p l (fun _ _ => true)) && k p l

/-- Search for a match of `r` starting at any position of the input. -/
def searchK (r : RE) : Option Char → List Char → Bool
  | p, [] => mtch r p [] (fun _ _ => true)
  | p, c :: rest => mtch r p (c :: rest) (fun _ _ => true) || searchK r (some c) rest

/-- Model of `Regex::is_match`. -/
def reIsMatch (r : RE) (l : List Char) : Bool := searchK r none l

/-- Shorthand: the regex matching a literal string. -/
def reStr (s : String) : RE := RE.lit s.data

/-- Severity of a diagnostic (enum `Severity` in the source). -/
inductive Severity where
  | Error : Severity
  | Warning : Severity
  | Info : Severity
deriving DecidableEq, Repr

/-- One reported finding (struct `AnalysisResult` in the source). -/
structure AnalysisResult where
  file : String
  line : Nat
  message : String
  severity : Severity
  rule_name : String
  code_snippet : String
deriving DecidableEq, Repr

/-- One catalog rule (struct `TextRule` in the source). -/
structure TextRule where
  name : String
  pattern : RE
  message : String
  severity : Severity
  languages : List String

/-- Pattern of `rust-unsafe-block`: `unsafe\s*\{`. -/
def patUnsafeBlock : RE :=
  .seq (reStr "unsafe") (.seq (.starCls isWsChar) (reStr "\x7b"))

/-- Pattern of `rust-unwrap`: `\.unwrap\(\)`. -/
def patUnwrap : RE := reStr ".unwrap()"

/-- Pattern of `rust-expect`: `\.expect\([^)]*\)`. -/
def patExpect : RE :=
  .seq (reStr ".expect(") (.seq (.starCls (fun c => !(c = ')'))) (reStr ")"))

/-- Pattern of `rust-todo`: `//\s*TODO:?\s*.+`. -/
def patTodo : RE :=
  .seq (reStr "//") (.seq (.starCls isWsChar) (.seq (reStr "TODO")
    (.seq (.opt (reStr ":")) (.seq (.starCls isWsChar) (.plusCls notNlChar)))))

/-- Pattern of `rust-fixme`: `//\s*FIXME:?\s*.+`. -/
def patFixme : RE :=
  .seq (reStr "//") (.seq (.starCls isWsChar) (.seq (reStr "FIXME")
    (.seq (.opt (reStr ":")) (.seq (.starCls isWsChar) (.plusCls notNlChar)))))

/-- Pattern of `c-unsafe-function`: `\b(gets|strcpy|sprintf)\s*\(`. -/
def patCUnsafeFn : RE :=
  .seq .wordB (.seq (.alt (reStr "gets") (.alt (reStr "strcpy") (reStr "sprintf")))
    (.seq (.starCls isWsChar) (reStr "(")))

/-- Pattern of `c-malloc-without-free`: `malloc\s*\(`. -/
def patMalloc : RE := .seq (reStr "malloc") (.seq (.starCls isWsChar) (reStr "("))

/-- Pattern of `c-printf-format`: `printf\s*\(`. -/
def patPrintf : RE := .seq (reStr "printf") (.seq (.starCls isWsChar) (reStr "("))

/-- Pattern of `long-line`: `^.{100,}$`. -/
def patLongLine : RE := .seq .bol (.seq (.atLeastCls notNlChar 100) .eol)

/-- The alternatives inside the `magic-number` pattern:
`0\b | -1\b | 1\b | (?:10|100|1000|255|256|1024|60|3600|24|7|8080|3000|3306)\b`. -/
def magicAlternatives : RE :=
  .alt (.seq (reStr "0") .wordB)
    (.alt (.seq (reStr "-1") .wordB)
      (.alt (.seq (reStr "1") .wordB)
        (.seq (.alt (reStr "10") (.alt (reStr "100") (.alt (reStr "1000")
          (.alt (reStr "255") (.alt (reStr "256") (.alt (reStr "1024")
          (.alt (reStr "60") (.alt (reStr "3600") (.alt (reStr "24")
          (.alt (reStr "7") (.alt (reStr "8080")
          (.alt (reStr "3000") (reStr "3306"))))))))))))) .wordB)))

/-- Pattern text of `magic-number` (extended-mode regex of the source,
comments stripped): `\b( 0\b | -1\b | 1\b | (?:10|100|1000|255|256|1024|60|3600|24|7|8080|3000|3306)\b )(?!\.\d)(?!\()(?!\w)`.
This is a transcription of the pattern string only: the three `(?!...)`
negative look-aheads are look-around, which `Regex::new` rejects, so this
pattern never compiles and no rule with it ever exists in the program
(see `Regex.new` and `get_text_rules`). -/
def patMagicNumber : RE :=
  .seq .wordB (.seq magicAlternatives
    (.seq (.notAhead (.seq (.cls (fun c => c = '.')) (.cls isDigitChar)))
      (.seq (.notAhead (reStr "(")) (.notAhead (.cls isWordChar)))))

/-- The IP-address regex used by `is_false_positive`:
`\b\d{1,3}\.\d{1,3}\.\d{1,3}\.\d{1,3}\b`. -/
def ipPattern : RE :=
  .seq .wordB (.seq (.repCls isDigitChar 1 3) (.seq (reStr ".")
    (.seq (.repCls isDigitChar 1 3) (.seq (reStr ".")
      (.seq (.repCls isDigitChar 1 3) (.seq (reStr ".")
        (.seq (.repCls isDigitChar 1 3) .wordB)))))))

/-- True when the regex contains no look-around construct (`notAhead` is
the only look-around of this syntax). -/
def RE.lookAroundFree : RE → Bool
  | .seq a b => a.lookAroundFree && b.lookAroundFree
  | .alt a b => a.lookAroundFree && b.lookAroundFree
  | .opt a => a.lookAroundFree
  | .notAhead _ => false
  | _ => true

/-- Model of `Regex::new`: the `regex` crate does not support look-around
("look-around, including look-ahead and look-behind, is not supported"),
and every other construct appearing in the catalog's patterns is
supported, so acceptance is exactly look-around-freeness. -/
def Regex.new (r : RE) : Option RE :=
  if r.lookAroundFree then some r else none

/-- Model of `TextRule::new` (main.rs:72-87): compile the pattern with
`Regex::new` and unwrap.  `none` models the panic of `.unwrap()` on a
pattern the crate rejects. -/
def TextRule.new (name : String) (pattern : RE) (message : String)
    (severity : Severity) (languages : List String) : Option TextRule :=
  match Regex.new pattern with
  | some p => some { name := name, pattern := p, message := message,
                     severity := severity, languages := languages }
  | none => none

/-- The nine catalog rules whose patterns `Regex::new` accepts, named
individually, in source order.  There is no value for rule 10
(`magic-number`): its construction panics — see `get_text_rules`. -/
def ruleRustUnsafeBlock : TextRule :=
  { name := "rust-unsafe-block", pattern := patUnsafeBlock,
    message := "Найден unsafe блок",
    severity := .Warning, languages := ["rust"] }

/-- Catalog rule 2. -/
def ruleRustUnwrap : TextRule :=
  { name := "rust-unwrap", pattern := patUnwrap,
    message := "Использование unwrap() может вызвать панику",
    severity := .Warning, languages := ["rust"] }

/-- Catalog rule 3. -/
def ruleRustExpect : TextRule :=
  { name := "rust-expect", pattern := patExpect,
    message := "Использование expect() может вызвать панику",
    severity := .Warning, languages := ["rust"] }

/-- Catalog rule 4. -/
def ruleRustTodo : TextRule :=
  { name := "rust-todo", pattern := patTodo,
    message := "Найден TODO комментарий",
    severity := .Info, languages := ["rust"] }

/-- Catalog rule 5. -/
def ruleRustFixme : TextRule :=
  { name := "rust-fixme", pattern := patFixme,
    message := "Найден FIXME комментарий",
    severity := .Info, languages := ["rust"] }

/-- Catalog rule 6. -/
def ruleCUnsafeFunction : TextRule :=
  { name := "c-unsafe-function", pattern := patCUnsafeFn,
    message := "Использование небезопасной функции",
    severity := .Error, languages := ["c", "cpp"] }

/-- Catalog rule 7. -/
def ruleCMalloc : TextRule :=
  { name := "c-malloc-without-free", pattern := patMalloc,
    message := "malloc без проверки на free",
    severity := .Warning, languages := ["c", "cpp"] }

/-- Catalog rule 8. -/
def ruleCPrintf : TextRule :=
  { name := "c-printf-format", pattern := patPrintf,
    message := "Использование printf вместо fprintf/std::cout",
    severity := .Info, languages := ["c", "cpp"] }

/-- Catalog rule 9. -/
def ruleLongLine : TextRule :=
  { name := "long-line", pattern := patLongLine,
    message := "Строка длиннее 100 символов",
    severity := .Warning, languages := ["rust", "c", "cpp"] }

/-- The nine rules the program could construct, in catalog order.  The
program itself never holds this (or any) rule list — `get_text_rules`
panics on rule 10 — but each element is the value its `TextRule::new` call
returns (see `textRule_new_results`), so statements over this list describe
what `analyze_file` does when given the constructible rules. -/
def compiledRules : List TextRule :=
  [ ruleRustUnsafeBlock, ruleRustUnwrap, ruleRustExpect, ruleRustTodo,
    ruleRustFixme, ruleCUnsafeFunction, ruleCMalloc, ruleCPrintf,
    ruleLongLine ]

/-- Function `get_text_rules` (main.rs:113-207): the vec of ten
`TextRule::new` calls, in source order.  Each `.unwrap()` can panic;
`none` models the panic aborting the call.  Because the `magic-number`
pattern contains look-aheads that `Regex::new` rejects, the tenth
construction panics and the whole function never returns: this definition
evaluates to `none`. -/
def get_text_rules : Option (List TextRule) := do
  let r1 ← TextRule.new "rust-unsafe-block" patUnsafeBlock
    "Найден unsafe блок" .Warning ["rust"]
  let r2 ← TextRule.new "rust-unwrap" patUnwrap
    "Использование unwrap() может вызвать панику" .Warning ["rust"]
  let r3 ← TextRule.new "rust-expect" patExpect
    "Использование expect() может вызвать панику" .Warning ["rust"]
  let r4 ← TextRule.new "rust-todo" patTodo
    "Найден TODO комментарий" .Info ["rust"]
  let r5 ← TextRule.new "rust-fixme" patFixme
    "Найден FIXME комментарий" .Info ["rust"]
  let r6 ← TextRule.new "c-unsafe-function" patCUnsafeFn
    "Использование небезопасной функции" .Error ["c", "cpp"]
  let r7 ← TextRule.new "c-malloc-without-free" patMalloc
    "malloc без проверки на free" .Warning ["c", "cpp"]
  let r8 ← TextRule.new "c-printf-format" patPrintf
    "Использование printf вместо fprintf/std::cout" .Info ["c", "cpp"]
  let r9 ← TextRule.new "long-line" patLongLine
    "Строка длиннее 100 символов" .Warning ["rust", "c", "cpp"]
  let r10 ← TextRule.new "magic-number" patMagicNumber
    "Возможно магическое число - рассмотрите использование именованной константы"
    .Info ["rust", "c", "cpp"]
  return [r1, r2, r3, r4, r5, r6, r7, r8, r9, r10]

/-- Function `matches_language`. -/
def matches_language (extension : String) (language : String) : Bool :=
  match language with
  | "rust" => extension == "rs"
  | "c" => extension == "c"
  | "cpp" => extension == "cpp" || extension == "cxx" || extension == "cc" || extension == "hpp"
  | _ => false

/-- Function `is_comment_line`: heuristic single-line comment test, keyed on
the (lower-cased) file extension. -/
def is_comment_line (line : List Char) (extension : String) : Bool :=
  match extension with
  | "rs" => startsWithL "//".data line || startsWithL "/*".data line || startsWithL "*".data line
  | "c" | "cpp" | "h" | "hpp" =>
      startsWithL "//".data line || startsWithL "/*".data line || startsWithL "*".data line
  | _ => false

/-- Function `is_false_positive`: rule-specific suppression, defined only
for `magic-number`. -/
def is_false_positive (line : List Char) (rule_name : String) : Bool :=
  if rule_name = "magic-number" then
    if line.contains '[' && line.contains ']' then true
    else if containsSub "version".data line || containsSub "v1.".data line
           || containsSub "v0.".data line then true
    else if reIsMatch ipPattern line then true
    else false
  else false

/-- The body of the rule loop of `analyze_file` for a single (already
trimmed, non-skipped) line: every applicable, matching, non-suppressed rule
produces one diagnostic, in catalog order. -/
def analyzeLine (path : String) (extension : String) (rules : List TextRule)
    (line_num : Nat) (line : List Char) : List AnalysisResult :=
  rules.filterMap (fun rule =>
    if rule.languages.any (fun lang => matches_language extension lang) then
      if reIsMatch rule.pattern line && !(is_false_positive line rule.name) then
        some { file := path, line := line_num + 1, message := rule.message,
               severity := rule.severity, rule_name := rule.name,
               code_snippet := String.mk line }
      else none
    else none)

/-- The line loop of `analyze_file`: lines are numbered from `n`, trimmed,
and skipped when empty or comment-only. -/
def analyzeLines (path : String) (extension : String) (rules : List TextRule) :
    Nat → List (List Char) → List AnalysisResult
  | _, [] => []
  | n, line0 :: rest =>
    (let line := trimChars line0
     if line.isEmpty then []
     else if is_comment_line line extension then []
     else analyzeLine path extension rules n line)
    ++ analyzeLines path extension rules (n + 1) rest

/-- Function `analyze_file`.  `readResult` models the outcome of
`fs::read_to_string` (`none` = read failure), and `extRaw` models
`path.extension().and_then(to_str).unwrap_or("")`, which the function
lower-cases before use. -/
def analyze_file (path : String) (extRaw : String) (readResult : Option String)
    (rules : List TextRule) : List AnalysisResult :=
  match readResult with
  | none => []
  | some content =>
    let extension := toLowerStr extRaw
    analyzeLines path extension rules 0 (rustLines content)

/-- Function `should_ignore`: built-in directory exclusions, then the
user-supplied substrings. -/
def should_ignore (path : String) (ignore_patterns : List String) : Bool :=
  if containsSub "/target/".data path.data || containsSub "/.git/".data path.data
     || containsSub "/node_modules/".data path.data
     || containsSub "/build/".data path.data then true
  else ignore_patterns.any (fun pattern => containsSub pattern.data path.data)

/-- One entry yielded by the directory walk, as seen by `analyze_path`:
its path string, the extension and read outcome that `analyze_file` would
observe for it, and whether it is a regular file. -/
structure DirEntry where
  is_file : Bool
  path : String
  ext : String
  content : Option String

/-- The entry loop of `analyze_path` (main.rs:289-306), parametric in the
rule list the loop was given: walk the entries, skip non-files and ignored
paths, and append each file's diagnostics in order. -/
def analyze_entries (rules : List TextRule) : List DirEntry → List String → List AnalysisResult
  | [], _ => []
  | entry :: rest, ignore_patterns =>
    (if entry.is_file then
      if should_ignore entry.path ignore_patterns then []
      else analyze_file entry.path entry.ext entry.content rules
     else [])
    ++ analyze_entries rules rest ignore_patterns

/-- Function `analyze_path`: first builds the rule catalog (main.rs:287),
then walks the entries.  `none` models the panic of `get_text_rules`,
which aborts every call before any entry is visited. -/
def analyze_path (entries : List DirEntry) (ignore_patterns : List String) :
    Option (List AnalysisResult) :=
  match get_text_rules with
  | none => none
  | some rules => some (analyze_entries rules entries ignore_patterns)

/-- The `matches!(r.severity, Severity::Error)` test from `main`. -/
def severityIsError : Severity → Bool
  | Severity.Error => true
  | _ => false

/-- The `--errors-only` step of `main`: keep only `Error` diagnostics when
the flag is set, otherwise pass the list through unchanged. -/
def errors_only_filter (errors_only : Bool) (results : List AnalysisResult) :
    List AnalysisResult :=
  if errors_only then results.filter (fun r => severityIsError r.severity)
  else results

/-- Index of a name in a list of names (first occurrence). -/
def idxOfName (n : String) : List String → Nat
  | [] => 0
  | m :: t => if m = n then 0 else idxOfName n t + 1

/-- Position of a rule name among the constructible rules (their relative
order equals their order in the source catalog). -/
def catalogIndex (n : String) : Nat :=
  idxOfName n (compiledRules.map (fun r => r.name))

/-- Emission order of diagnostics inside one file: increasing line number,
and catalog order among diagnostics of the same line. -/
def diagOrder (d1 d2 : AnalysisResult) : Prop :=
  d1.line < d2.line ∨ (d1.line = d2.line ∧ catalogIndex d1.rule_name < catalogIndex d2.rule_name)

/-! The startup panic: the first nine rule constructions succeed, the
tenth fails, so `get_text_rules` — and with it every `analyze_path` call —
aborts before any file is analyzed. -/

lemma textRule_new_results :
    TextRule.new "rust-unsafe-block" patUnsafeBlock
        "Найден unsafe блок" .Warning ["rust"] = some ruleRustUnsafeBlock ∧
    TextRule.new "rust-unwrap" patUnwrap
        "Использование unwrap() может вызвать панику" .Warning ["rust"]
      = some ruleRustUnwrap ∧
    TextRule.new "rust-expect" patExpect
        "Использование expect() может вызвать панику" .Warning ["rust"]
      = some ruleRustExpect ∧
    TextRule.new "rust-todo" patTodo
        "Найден TODO комментарий" .Info ["rust"] = some ruleRustTodo ∧
    TextRule.new "rust-fixme" patFixme
        "Найден FIXME комментарий" .Info ["rust"] = some ruleRustFixme ∧
    TextRule.new "c-unsafe-function" patCUnsafeFn
        "Использование небезопасной функции" .Error ["c", "cpp"]
      = some ruleCUnsafeFunction ∧
    TextRule.new "c-malloc-without-free" patMalloc
        "malloc без проверки на free" .Warning ["c", "cpp"] = some ruleCMalloc ∧
    TextRule.new "c-printf-format" patPrintf
        "Использование printf вместо fprintf/std::cout" .Info ["c", "cpp"]
      = some ruleCPrintf ∧
    TextRule.new "long-line" patLongLine
        "Строка длиннее 100 символов" .Warning ["rust", "c", "cpp"]
      = some ruleLongLine ∧
    TextRule.new "magic-number" patMagicNumber
        "Возможно магическое число - рассмотрите использование именованной константы"
        .Info ["rust", "c", "cpp"] = none :=
  ⟨rfl, rfl, rfl, rfl, rfl, rfl, rfl, rfl, rfl, rfl⟩

lemma get_text_rules_panics : get_text_rules = none := rfl

/-! Basic facts about the line-splitting and trimming helpers. -/

lemma mem_of_mem_dropWhileWs : ∀ {l : List Char} {a : Char}, a ∈ l.dropWhile isWsChar → a ∈ l := by
  intro l a h
  exact (List.dropWhile_sublist isWsChar).mem h

lemma mem_of_mem_trimChars {l : List Char} {a : Char} (h : a ∈ trimChars l) : a ∈ l := by
  unfold trimChars at h
  rw [List.mem_reverse] at h
  have h2 := mem_of_mem_dropWhileWs h
  rw [List.mem_reverse] at h2
  exact mem_of_mem_dropWhileWs h2

lemma splitNl_noNl : ∀ (cs : List Char), ∀ l ∈ splitNl cs, ∀ c ∈ l, ¬(c = '\n') := by
  intro cs
  induction cs with
  | nil =>
    intro l hl c hc
    simp [splitNl] at hl
    subst hl
    simp at hc
  | cons c0 r ih =>
    intro l hl c hc
    rw [splitNl] at hl
    by_cases h0 : c0 = '\n'
    · rw [if_pos h0] at hl
      rcases List.mem_cons.mp hl with rfl | hl2
      · simp at hc
      · exact ih l hl2 c hc
    · rw [if_neg h0] at hl
      cases hs : splitNl r with
      | nil => rw [hs] at hl; simp at hl; subst hl; simp at hc; subst hc; exact h0
      | cons h t =>
        rw [hs] at hl
        rcases List.mem_cons.mp hl with rfl | hl2
        · rcases List.mem_cons.mp hc with rfl | hc2
          · exact h0
          · exact ih h (by rw [hs]; exact List.mem_cons_self h t) c hc2
        · exact ih l (by rw [hs]; exact List.mem_cons_of_mem h hl2) c hc

lemma rustLines_noNl {content : String} {l : List Char} (hl : l ∈ rustLines content) :
    ∀ c ∈ l, ¬(c = '\n') := by
  intro c hc
  unfold rustLines at hl
  rcases List.mem_map.mp hl with ⟨l0, hl0, rfl⟩
  have hl0' : l0 ∈ splitNl content.data := by
    by_cases hcase : (splitNl content.data).getLast? = some []
    · rw [if_pos hcase] at hl0
      exact (List.dropLast_sublist _).mem hl0
    · rw [if_neg hcase] at hl0
      exact hl0
  have hc' : c ∈ l0 := by
    unfold stripCr at hc
    by_cases hcr : l0.getLast? = some '\r'
    · rw [if_pos hcr] at hc
      exact (List.dropLast_sublist _).mem hc
    · rw [if_neg hcr] at hc
      exact hc
  exact splitNl_noNl content.data l0 hl0' c hc'

/-! Inversion and construction lemmas for the per-line rule loop. -/

/-- The record built by `analyzeLine` for a given rule and line. -/
def mkResult (path : String) (line_num : Nat) (line : List Char) (rule : TextRule) :
    AnalysisResult :=
  { file := path, line := line_num + 1, message := rule.message,
    severity := rule.severity, rule_name := rule.name, code_snippet := String.mk line }

lemma analyzeLine_eq_filterMap (path extension : String) (rules : List TextRule)
    (line_num : Nat) (line : List Char) :
    analyzeLine path extension rules line_num line =
      rules.filterMap (fun rule =>
        if rule.languages.any (fun lang => matches_language extension lang) then
          if reIsMatch rule.pattern line && !(is_false_positive line rule.name) then
            some (mkResult path line_num line rule)
          else none
        else none) := rfl

lemma mem_analyzeLine {path extension : String} {rules : List TextRule} {n : Nat}
    {line : List Char} {d : AnalysisResult}
    (h : d ∈ analyzeLine path extension rules n line) :
    ∃ rule ∈ rules,
      rule.languages.any (fun lang => matches_language extension lang) = true ∧
      reIsMatch rule.pattern line = true ∧
      is_false_positive line rule.name = false ∧
      d = mkResult path n line rule := by
  rw [analyzeLine_eq_filterMap, List.mem_filterMap] at h
  obtain ⟨rule, hr, heq⟩ := h
  by_cases h1 : rule.languages.any (fun lang => matches_language extension lang) = true
  · rw [if_pos h1] at heq
    by_cases h2 : (reIsMatch rule.pattern line && !(is_false_positive line rule.name)) = true
    · rw [if_pos h2, Option.some_inj] at heq
      rw [Bool.and_eq_true, Bool.not_eq_true'] at h2
      exact ⟨rule, hr, h1, h2.1, h2.2, heq.symm⟩
    · rw [if_neg h2] at heq
      exact absurd heq (by simp)
  · rw [if_neg h1] at heq
    exact absurd heq (by simp)

lemma analyzeLine_mem {path extension : String} {rules : List TextRule} {n : Nat}
    {line : List Char} {rule : TextRule} (hr : rule ∈ rules)
    (h1 : rule.languages.any (fun lang => matches_language extension lang) = true)
    (h2 : reIsMatch rule.pattern line = true)
    (h3 : is_false_positive line rule.name = false) :
    mkResult path n line rule ∈ analyzeLine path extension rules n line := by
  rw [analyzeLine_eq_filterMap, List.mem_filterMap]
  refine ⟨rule, hr, ?_⟩
  rw [if_pos h1, if_pos (by rw [h2, h3]; rfl)]

lemma mem_analyzeLines {path extension : String} {rules : List TextRule} :
    ∀ {ls : List (List Char)} {n : Nat} {d : AnalysisResult},
      d ∈ analyzeLines path extension rules n ls →
      ∃ i line, ls.get? i = some line ∧
        (trimChars line).isEmpty = false ∧
        is_comment_line (trimChars line) extension = false ∧
        d ∈ analyzeLine path extension rules (n + i) (trimChars line) := by
  intro ls
  induction ls with
  | nil => intro n d h; simp [analyzeLines] at h
  | cons l0 rest ih =>
    intro n d h
    rw [analyzeLines] at h
    rcases List.mem_append.mp h with h1 | h2
    · by_cases he : (trimChars l0).isEmpty = true
      · simp only [he, if_true] at h1
        simp at h1
      · by_cases hc : is_comment_line (trimChars l0) extension = true
        · simp only [he, hc, if_true, if_false, Bool.false_eq_true] at h1
          simp at h1
        · refine ⟨0, l0, rfl, Bool.eq_false_iff.mpr he, Bool.eq_false_iff.mpr hc, ?_⟩
          simp only [he, hc, if_false, Bool.false_eq_true] at h1
          simpa using h1
    · obtain ⟨i, line, hget, hne, hnc, hm⟩ := ih h2
      refine ⟨i + 1, line, by simpa using hget, hne, hnc, ?_⟩
      have : n + 1 + i = n + (i + 1) := by omega
      rwa [this] at hm

lemma analyzeLines_mem {path extension : String} {rules : List TextRule} :
    ∀ {ls : List (List Char)} {i : Nat} {line : List Char} {n : Nat} {d : AnalysisResult},
      ls.get? i = some line →
      (trimChars line).isEmpty = false →
      is_comment_line (trimChars line) extension = false →
      d ∈ analyzeLine path extension rules (n + i) (trimChars line) →
      d ∈ analyzeLines path extension rules n ls := by
  intro ls
  induction ls with
  | nil => intro i line n d hget; simp at hget
  | cons l0 rest ih =>
    intro i line n d hget hne hnc hm
    rw [analyzeLines]
    cases i with
    | zero =>
      simp only [List.get?_cons_zero, Option.some_inj] at hget
      subst hget
      refine List.mem_append.mpr (Or.inl ?_)
      simp only [Bool.eq_false_iff] at hne hnc
      simp only [hne, hnc, if_false, Bool.false_eq_true]
      simpa using hm
    | succ j =>
      simp only [List.get?_cons_succ] at hget
      refine List.mem_append.mpr (Or.inr ?_)
      refine ih hget hne hnc ?_
      have : n + 1 + j = n + (j + 1) := by omega
      rwa [this]

lemma mem_analyze_file {path extRaw content : String} {rules : List TextRule}
    {d : AnalysisResult} (h : d ∈ analyze_file path extRaw (some content) rules) :
    ∃ i line rule, (rustLines content).get? i = some line ∧ rule ∈ rules ∧
      (trimChars line).isEmpty = false ∧
      is_comment_line (trimChars line) (toLowerStr extRaw) = false ∧
      rule.languages.any (fun lang => matches_language (toLowerStr extRaw) lang) = true ∧
      reIsMatch rule.pattern (trimChars line) = true ∧
      is_false_positive (trimChars line) rule.name = false ∧
      d = mkResult path i (trimChars line) rule := by
  rw [analyze_file] at h
  obtain ⟨i, line, hget, hne, hnc, hm⟩ := mem_analyzeLines h
  obtain ⟨rule, hr, h1, h2, h3, hd⟩ := mem_analyzeLine hm
  exact ⟨i, line, rule, hget, hr, hne, hnc, h1, h2, h3, by simpa using hd⟩

lemma analyze_file_mem {path extRaw content : String} {rules : List TextRule}
    {i : Nat} {line : List Char} {rule : TextRule}
    (hget : (rustLines content).get? i = some line)
    (hne : (trimChars line).isEmpty = false)
    (hnc : is_comment_line (trimChars line) (toLowerStr extRaw) = false)
    (hr : rule ∈ rules)
    (h1 : rule.languages.any (fun lang => matches_language (toLowerStr extRaw) lang) = true)
    (h2 : reIsMatch rule.pattern (trimChars line) = true)
    (h3 : is_false_positive (trimChars line) rule.name = false) :
    mkResult path i (trimChars line) rule ∈ analyze_file path extRaw (some content) rules := by
  rw [analyze_file]
  exact analyzeLines_mem hget hne hnc
    (by simpa using @analyzeLine_mem path _ _ (0 + i) _ _ hr h1 h2 h3)

/-! Characterisation of the `long-line` pattern `^.{100,}$`: on a haystack
free of newline characters it matches exactly the inputs of length at
least 100. -/

lemma starK_isEmpty_eq (q : Char → Bool) :
    ∀ (p : Option Char) (l : List Char),
      starK q (fun _ l2 => l2.isEmpty) p l = l.all q := by
  intro p l
  induction l generalizing p with
  | nil => simp [starK]
  | cons c r ih => simp [starK, ih, List.all_cons]

lemma exactK_star_isEmpty_eq (q : Char → Bool) :
    ∀ (m : Nat) (p : Option Char) (l : List Char),
      exactK q (fun p2 l2 => starK q (fun _ l3 => l3.isEmpty) p2 l2) m p l
        = (decide (m ≤ l.length) && l.all q) := by
  intro m
  induction m with
  | zero => intro p l; simp [exactK, starK_isEmpty_eq]
  | succ n ih =>
    intro p l
    cases l with
    | nil => simp [exactK]
    | cons c r =>
      rw [exactK, ih]
      simp only [List.length_cons, List.all_cons]
      by_cases hq : q c = true
      · simp [hq, Nat.succ_le_succ_iff]
      · simp [Bool.eq_false_iff.mpr hq]

lemma mtch_longLine_none (l : List Char) :
    mtch patLongLine none l (fun _ _ => true)
      = (decide (100 ≤ l.length) && l.all notNlChar) := by
  have h : mtch patLongLine none l (fun _ _ => true)
      = exactK notNlChar
          (fun p2 l2 => starK notNlChar (fun _ l3 => l3.isEmpty) p2 l2) 100 none l := by
    simp only [patLongLine, mtch, Option.isNone_none, Bool.true_and, Bool.and_true]
  rw [h, exactK_star_isEmpty_eq]

lemma searchK_bol_some (r : RE) :
    ∀ (c : Char) (l : List Char), searchK (RE.seq .bol r) (some c) l = false := by
  intro c l
  induction l generalizing c with
  | nil => simp only [searchK, mtch, Option.isNone_some, Bool.false_and]
  | cons c2 r2 ih =>
    simp only [searchK, mtch, Option.isNone_some, Bool.false_and, Bool.false_or]
    exact ih c2

lemma reIsMatch_longLine (l : List Char) :
    reIsMatch patLongLine l = (decide (100 ≤ l.length) && l.all notNlChar) := by
  rw [reIsMatch]
  cases l with
  | nil =>
    rw [searchK, mtch_longLine_none]
  | cons c r =>
    rw [searchK]
    rw [show searchK patLongLine (some c) r = false from searchK_bol_some _ c r]
    rw [Bool.or_false, mtch_longLine_none]

lemma severityIsError_eq_true {s : Severity} :
    severityIsError s = true ↔ s = Severity.Error := by
  cases s <;> simp [severityIsError]

/-- C3: the errors-only filtered output is a subsequence of the unfiltered
output, it contains exactly the diagnostics of severity `Error`, and the
unfiltered branch passes the list through unchanged (so nothing is added,
removed beyond non-errors, or reordered). -/
theorem C3_errors_only_exact_subsequence (results : List AnalysisResult) :
    List.Sublist (errors_only_filter true results) (errors_only_filter false results) ∧
    (∀ d, d ∈ errors_only_filter true results ↔ d ∈ results ∧ d.severity = Severity.Error) ∧
    errors_only_filter false results = results := by
  have hfil : errors_only_filter true results
      = results.filter (fun r => severityIsError r.severity) := rfl
  have hid : errors_only_filter false results = results := rfl
  refine ⟨?_, ?_, hid⟩
  · rw [hfil, hid]
    exact List.filter_sublist results
  · intro d
    rw [hfil, List.mem_filter]
    exact and_congr_right (fun _ => severityIsError_eq_true)

/-- C5: the read-failure path of `analyze_file` is fail-open — `none`
content yields zero diagnostics for every rule list — and within the entry
loop an unreadable file leaves every other entry's diagnostics unchanged;
but the shipped program never reaches this path: `analyze_path` panics in
`get_text_rules` before visiting any entry (third conjunct). -/
theorem C5_read_failure_fail_open :
    (∀ (path ext : String) (rules : List TextRule), analyze_file path ext none rules = []) ∧
    (∀ (rules : List TextRule) (pre post : List DirEntry) (p e : String) (ig : List String),
      analyze_entries rules
          (pre ++ { is_file := true, path := p, ext := e, content := none } :: post) ig
        = analyze_entries rules (pre ++ post) ig) ∧
    (∀ (entries : List DirEntry) (ig : List String), analyze_path entries ig = none) := by
  refine ⟨?_, ?_, ?_⟩
  · intro path ext rules
    rfl
  · intro rules pre post p e ig
    induction pre with
    | nil => simp [analyze_entries, analyze_file]
    | cons e0 rest ih =>
      simp only [List.cons_append, analyze_entries]
      congr 1
  · intro entries ig
    rfl

/-- C6: the ignore policy is monotonic in the user-supplied substring list,
and the four built-in exclusions apply for every user list. -/
theorem C6_ignore_policy_monotonic :
    (∀ (path : String) (L L2 : List String), (∀ p ∈ L, p ∈ L2) →
      should_ignore path L = true → should_ignore path L2 = true) ∧
    (∀ (path : String) (L : List String),
      (containsSub "/target/".data path.data = true
        ∨ containsSub "/.git/".data path.data = true
        ∨ containsSub "/node_modules/".data path.data = true
        ∨ containsSub "/build/".data path.data = true) →
      should_ignore path L = true) := by
  constructor
  · intro path L L2 hsub h
    by_cases hB : (containsSub "/target/".data path.data || containsSub "/.git/".data path.data
        || containsSub "/node_modules/".data path.data || containsSub "/build/".data path.data) = true
    · rw [should_ignore, if_pos hB]
    · rw [should_ignore, if_neg hB] at h ⊢
      rw [List.any_eq_true] at h ⊢
      obtain ⟨pat, hp, hc⟩ := h
      exact ⟨pat, hsub pat hp, hc⟩
  · intro path L h
    have hB : (containsSub "/target/".data path.data || containsSub "/.git/".data path.data
        || containsSub "/node_modules/".data path.data || containsSub "/build/".data path.data) = true := by
      rcases h with h | h | h | h <;> simp [h]
    rw [should_ignore, if_pos hB]

/-- C6 witness: the built-in `/target/` exclusion fires with user list
`["x"]`, via monotonicity from the empty user list. -/
theorem C6_ignore_policy_monotonic_witness :
    should_ignore "/a/target/b.rs" ["x"] = true :=
  C6_ignore_policy_monotonic.1 "/a/target/b.rs" [] ["x"] (by simp)
    (C6_ignore_policy_monotonic.2 "/a/target/b.rs" [] (Or.inl (by decide)))

/-- The IPv4 shape exactly as the claim words it, `\d{1,3}\.\d{1,3}\.\d{1,3}\.\d{1,3}`,
without the `\b` word boundaries that the regex in `is_false_positive`
actually has. -/
def ipPatternSpec : RE :=
  .seq (.repCls isDigitChar 1 3) (.seq (reStr ".")
    (.seq (.repCls isDigitChar 1 3) (.seq (reStr ".")
      (.seq (.repCls isDigitChar 1 3) (.seq (reStr ".")
        (.repCls isDigitChar 1 3))))))

/-- C7 counterexample: the line `x = 1234.5.6.7;` contains a token matching
the claim's boundary-free IPv4 pattern (namely `234.5.6.7`) and triggers no
other suppression condition, yet `is_false_positive` does not suppress it,
because the code's regex requires word boundaries around the token. -/
theorem C7_counterexample :
    reIsMatch ipPatternSpec "x = 1234.5.6.7;".data = true ∧
    ("x = 1234.5.6.7;".data.contains '[' && "x = 1234.5.6.7;".data.contains ']') = false ∧
    (containsSub "version".data "x = 1234.5.6.7;".data
      || containsSub "v1.".data "x = 1234.5.6.7;".data
      || containsSub "v0.".data "x = 1234.5.6.7;".data) = false ∧
    is_false_positive "x = 1234.5.6.7;".data "magic-number" = false := by decide

/-- C7 (amended): the false-positive filter suppresses only for the rule
named `magic-number`, and for that rule exactly when the line contains both
brackets, or one of the version substrings, or a word-boundary-delimited
IPv4-shaped token (`\b\d{1,3}\.\d{1,3}\.\d{1,3}\.\d{1,3}\b`). -/
theorem C7_false_positive_filter :
    (∀ (line : List Char) (rule_name : String),
      ¬(rule_name = "magic-number") → is_false_positive line rule_name = false) ∧
    (∀ line : List Char,
      is_false_positive line "magic-number" = true ↔
        ((line.contains '[' && line.contains ']') = true
          ∨ (containsSub "version".data line || containsSub "v1.".data line
              || containsSub "v0.".data line) = true
          ∨ reIsMatch ipPattern line = true)) := by
  constructor
  · intro line rule_name hne
    rw [is_false_positive, if_neg hne]
  · intro line
    rw [is_false_positive, if_pos rfl]
    by_cases h1 : (line.contains '[' && line.contains ']') = true
    · simp [h1]
    · by_cases h2 : (containsSub "version".data line || containsSub "v1.".data line
          || containsSub "v0.".data line) = true
      · simp [h1, h2]
      · by_cases h3 : reIsMatch ipPattern line = true
        · simp [h1, h2, h3]
        · simp [h1, h2, h3]

/-- C7 witness: `999.999.999.999` suppresses a `magic-number` match even
though it is not a valid IPv4 address, and `rust-unwrap` is never
suppressed. -/
theorem C7_false_positive_filter_witness :
    is_false_positive "x = 999.999.999.999".data "magic-number" = true ∧
    is_false_positive "x = 999.999.999.999".data "rust-unwrap" = false :=
  ⟨(C7_false_positive_filter.2 "x = 999.999.999.999".data).mpr
      (Or.inr (Or.inr (by decide))),
    C7_false_positive_filter.1 "x = 999.999.999.999".data "rust-unwrap" (by decide)⟩

/-- C8: the scenario input never yields its `rust-unwrap` diagnostic in
the shipped program — the scan panics in `get_text_rules` before reading
the file (first two conjuncts); given the nine constructible rules,
`analyze_file` would produce exactly the one claimed `Warning` diagnostic
(third conjunct). -/
theorem C8_unwrap_scenario :
    get_text_rules = none ∧
    analyze_path [{ is_file := true, path := "test.rs", ext := "rs", content := some "    let x = v.unwrap();" }] [] = none ∧
    (analyze_file "test.rs" "rs" (some "    let x = v.unwrap();") compiledRules).map
        (fun d => (d.rule_name, d.severity))
      = [("rust-unwrap", Severity.Warning)] :=
  ⟨rfl, rfl, by decide⟩

/-- C1 counterexample: the `rust-todo` rule's own pattern does compile
(first conjunct), and given the nine constructible rules, a `.rs` line
carrying code followed by a trailing `// TODO` comment is not comment-only
(its trimmed form starts with the code), so the Comment Filter does not
skip it and `rust-todo` does emit a diagnostic — the rule is not
structurally dead under the filter-then-match ordering. -/
theorem C1_counterexample :
    TextRule.new "rust-todo" patTodo "Найден TODO комментарий" .Info ["rust"]
        = some ruleRustTodo ∧
    (analyze_file "a.rs" "rs" (some "qq(); // TODO: zz") compiledRules).map
        (fun d => d.rule_name)
      = ["rust-todo"] :=
  ⟨rfl, by decide⟩

lemma is_comment_line_rs (line : List Char) :
    is_comment_line line "rs"
      = (startsWithL "//".data line || startsWithL "/*".data line
          || startsWithL "*".data line) := rfl

lemma is_false_positive_of_ne {line : List Char} {rule_name : String}
    (h : ¬(rule_name = "magic-number")) : is_false_positive line rule_name = false := by
  rw [is_false_positive, if_neg h]

/-- C1 (amended): for `.rs` files, every comment-only line — one whose
trimmed form starts with `//` (or `/*` or `*`) — is skipped before rule
evaluation: with the nine constructible rules the file
`// TODO: fix this later` produces zero diagnostics, and for every rule
list no emitted diagnostic's snippet starts with `//`; the separately
proved counterexample shows `rust-todo` still fires when `//` follows
code, and in the shipped program no rule ever fires for a different
reason — `get_text_rules` panics, aborting every scan at startup (first
conjunct). -/
theorem C1_comment_gating (path content : String) :
    get_text_rules = none ∧
    analyze_file path "rs" (some "// TODO: fix this later") compiledRules = [] ∧
    (∀ (rules : List TextRule), ∀ d ∈ analyze_file path "rs" (some content) rules,
      startsWithL "//".data d.code_snippet.data = false) := by
  refine ⟨rfl, rfl, ?_⟩
  intro rules d hd
  obtain ⟨i, line, rule, hget, hr, hne, hnc, h1, h2, h3, hd'⟩ := mem_analyze_file hd
  have hext : toLowerStr "rs" = "rs" := rfl
  rw [hext, is_comment_line_rs] at hnc
  subst hd'
  show startsWithL "//".data (String.mk (trimChars line)).data = false
  have : (String.mk (trimChars line)).data = trimChars line := rfl
  rw [this]
  cases hcc : startsWithL "//".data (trimChars line) with
  | false => rfl
  | true => rw [hcc] at hnc; simp at hnc

/-- C1 witness: the amended theorem applied to a concrete `.rs` file with a
trailing-comment line; the emitted snippet does not start with `//`. -/
theorem C1_comment_gating_witness :
    startsWithL "//".data
      (AnalysisResult.code_snippet
        ⟨"a.rs", 1, "Найден TODO комментарий", Severity.Info,
          "rust-todo", "qq(); // TODO: zz"⟩).data = false :=
  (C1_comment_gating "a.rs" "qq(); // TODO: zz").2.2 compiledRules
    ⟨"a.rs", 1, "Найден TODO комментарий", Severity.Info, "rust-todo", "qq(); // TODO: zz"⟩
    (by decide)

/-- A line of exactly 100 characters, used against the strict reading of
the `long-line` claim. -/
def sampleLine100 : String := String.mk (List.replicate 100 'a')

/-- A line of 101 characters. -/
def sampleLine101 : String := String.mk (List.replicate 101 'a')

/-- C2 counterexample: given the nine constructible rules, a line of
exactly 100 characters — which does not exceed 100 — already produces the
`long-line` diagnostic, because the pattern `^.{100,}$` matches length
100. -/
theorem C2_counterexample :
    (analyze_file "a.rs" "rs" (some sampleLine100) compiledRules).map
        (fun d => d.rule_name) = ["long-line"] ∧
    sampleLine100.length = 100 := by decide

/-- C2 (amended): the shipped program never emits a `long-line` diagnostic
— `get_text_rules` panics at startup (first conjunct); given the nine
constructible rules, for a file whose lower-cased extension maps to a
language tag, the `long-line` rule produces a `Warning` diagnostic for a
given non-empty, non-comment line exactly when the trimmed line's length
is at least 100 characters (second conjunct). -/
theorem C2_long_line_iff (path extRaw content : String) (i : Nat) (line : List Char)
    (hlang : (matches_language (toLowerStr extRaw) "rust"
        || matches_language (toLowerStr extRaw) "c"
        || matches_language (toLowerStr extRaw) "cpp") = true)
    (hget : (rustLines content).get? i = some line)
    (hne : (trimChars line).isEmpty = false)
    (hnc : is_comment_line (trimChars line) (toLowerStr extRaw) = false) :
    get_text_rules = none ∧
    ((∃ d ∈ analyze_file path extRaw (some content) compiledRules,
        d.rule_name = "long-line" ∧ d.line = i + 1 ∧ d.severity = Severity.Warning)
      ↔ 100 ≤ (trimChars line).length) := by
  refine ⟨rfl, ?_⟩
  constructor
  · rintro ⟨d, hd, hname, hline, _⟩
    obtain ⟨i2, line2, rule, hget2, hr, hne2, hnc2, h1, h2, h3, hd'⟩ := mem_analyze_file hd
    subst hd'
    have hname' : rule.name = "long-line" := hname
    have hline' : i2 + 1 = i + 1 := hline
    have hi : i2 = i := by omega
    subst hi
    rw [hget] at hget2
    have hlineeq : line2 = line := (Option.some_inj.mp hget2).symm
    subst hlineeq
    rw [compiledRules] at hr
    simp only [List.mem_cons, List.not_mem_nil, or_false] at hr
    rcases hr with rfl | rfl | rfl | rfl | rfl | rfl | rfl | rfl | rfl <;>
      first
      | (exact absurd hname' (by decide))
      | (rw [show ruleLongLine.pattern = patLongLine from rfl, reIsMatch_longLine] at h2
         rw [Bool.and_eq_true, decide_eq_true_iff] at h2
         exact h2.1)
  · intro hlen
    have hmem : line ∈ rustLines content := List.get?_mem hget
    have hnl : (trimChars line).all notNlChar = true := by
      rw [List.all_eq_true]
      intro c hc
      have := rustLines_noNl hmem c (mem_of_mem_trimChars hc)
      simp [notNlChar, this]
    have h2 : reIsMatch ruleLongLine.pattern (trimChars line) = true := by
      rw [show ruleLongLine.pattern = patLongLine from rfl, reIsMatch_longLine, hnl,
        decide_eq_true hlen]
      rfl
    have h1 : ruleLongLine.languages.any
        (fun lang => matches_language (toLowerStr extRaw) lang) = true := by
      rw [show ruleLongLine.languages = ["rust", "c", "cpp"] from rfl]
      simp only [List.any_cons, List.any_nil, Bool.or_false]
      simpa [Bool.or_assoc] using hlang
    have h3 : is_false_positive (trimChars line) ruleLongLine.name = false :=
      is_false_positive_of_ne (by decide)
    have hr : ruleLongLine ∈ compiledRules := by
      rw [compiledRules]
      simp
    refine ⟨mkResult path i (trimChars line) ruleLongLine,
      analyze_file_mem hget hne hnc hr h1 h2 h3, rfl, rfl, rfl⟩

/-- C2 witness: the amended iff instantiated at a concrete 101-character
`.rs` line. -/
theorem C2_long_line_iff_witness :
    get_text_rules = none ∧
    ((∃ d ∈ analyze_file "a.rs" "rs" (some sampleLine101) compiledRules,
        d.rule_name = "long-line" ∧ d.line = 0 + 1 ∧ d.severity = Severity.Warning)
      ↔ 100 ≤ (trimChars sampleLine101.data).length) :=
  C2_long_line_iff "a.rs" "rs" sampleLine101 0 sampleLine101.data
    (by decide) (by decide) (by decide) (by decide)

/-- C4: the shipped program emits no diagnostic at all — `get_text_rules`
panics before `analyze_file` is ever invoked (first conjunct); the
numbering of `analyze_file` itself is nevertheless as claimed, for every
rule list it could be called with: each diagnostic's line number is
1-based and the line at index `line - 1` of the original content (skipped
lines included) trims to the reported snippet (second conjunct). -/
theorem C4_line_numbers_physical (path extRaw content : String) :
    get_text_rules = none ∧
    (∀ (rules : List TextRule), ∀ d ∈ analyze_file path extRaw (some content) rules,
      1 ≤ d.line ∧ ∃ line, (rustLines content).get? (d.line - 1) = some line ∧
        d.code_snippet = String.mk (trimChars line)) := by
  refine ⟨rfl, ?_⟩
  intro rules d hd
  obtain ⟨i, line, rule, hget, hr, hne, hnc, h1, h2, h3, hd'⟩ := mem_analyze_file hd
  subst hd'
  refine ⟨by simp [mkResult], line, ?_, rfl⟩
  simpa [mkResult] using hget

/-- C4 witness: in a `.rs` file whose first three physical lines are
skipped (two empty, one comment-only), the `rust-unwrap` diagnostic reports
line 4, the physical position, not 1. -/
theorem C4_line_numbers_physical_witness :
    1 ≤ (AnalysisResult.line
          ⟨"a.rs", 4, "Использование unwrap() может вызвать панику",
            Severity.Warning, "rust-unwrap", "v.unwrap();"⟩) ∧
    ∃ line, (rustLines "\n\n// c\nv.unwrap();").get?
        ((AnalysisResult.line
          ⟨"a.rs", 4, "Использование unwrap() может вызвать панику",
            Severity.Warning, "rust-unwrap", "v.unwrap();"⟩) - 1) = some line ∧
      (AnalysisResult.code_snippet
          ⟨"a.rs", 4, "Использование unwrap() может вызвать панику",
            Severity.Warning, "rust-unwrap", "v.unwrap();"⟩) = String.mk (trimChars line) :=
  (C4_line_numbers_physical "a.rs" "rs" "\n\n// c\nv.unwrap();").2 compiledRules
    ⟨"a.rs", 4, "Использование unwrap() может вызвать панику",
      Severity.Warning, "rust-unwrap", "v.unwrap();"⟩ (by decide)

/-- C10: the ten-rule catalog the claim presumes never exists at runtime —
`get_text_rules` panics on rule 10 (first conjunct); the nine
constructible rules do have pairwise-distinct names (second conjunct), and
for every rule list, every diagnostic `analyze_file` emits agrees with a
supplied rule bearing its rule name: same severity, same message, a
snippet its pattern matches, the snippet being the trim of an actual
non-empty source line (third conjunct). -/
theorem C10_diagnostic_internal_consistency (path extRaw content : String) :
    get_text_rules = none ∧
    (compiledRules.map (fun r => r.name)).Nodup ∧
    (∀ (rules : List TextRule), ∀ d ∈ analyze_file path extRaw (some content) rules,
      ∃ rule ∈ rules,
        d.rule_name = rule.name ∧ d.severity = rule.severity ∧ d.message = rule.message ∧
        reIsMatch rule.pattern d.code_snippet.data = true ∧
        ∃ i line, (rustLines content).get? i = some line ∧
          d.code_snippet = String.mk (trimChars line) ∧
          (trimChars line).isEmpty = false) := by
  refine ⟨rfl, by decide, ?_⟩
  intro rules d hd
  obtain ⟨i, line, rule, hget, hr, hne, hnc, h1, h2, h3, hd'⟩ := mem_analyze_file hd
  subst hd'
  exact ⟨rule, hr, rfl, rfl, rfl, h2, i, line, hget, rfl, hne⟩

/-- C10 witness: the consistency statement instantiated at the single
diagnostic of a one-line `.rs` file. -/
theorem C10_diagnostic_internal_consistency_witness :
    ∃ rule ∈ compiledRules,
      "rust-unwrap" = rule.name ∧ Severity.Warning = rule.severity ∧
      "Использование unwrap() может вызвать панику" = rule.message ∧
      reIsMatch rule.pattern "foo.unwrap();".data = true ∧
      ∃ i line, (rustLines "foo.unwrap();").get? i = some line ∧
        ("foo.unwrap();" : String) = String.mk (trimChars line) ∧
        (trimChars line).isEmpty = false :=
  (C10_diagnostic_internal_consistency "a.rs" "rs" "foo.unwrap();").2.2 compiledRules
    ⟨"a.rs", 1, "Использование unwrap() может вызвать панику",
      Severity.Warning, "rust-unwrap", "foo.unwrap();"⟩ (by decide)

/-! Ordering of the emitted diagnostics (claim C9). -/

lemma pairwise_filterMap_of {α β : Type} {S : α → α → Prop} {R : β → β → Prop}
    (f : α → Option β)
    (hf : ∀ a b x y, S a b → f a = some x → f b = some y → R x y) :
    ∀ {l : List α}, l.Pairwise S → (l.filterMap f).Pairwise R := by
  intro l
  induction l with
  | nil => intro _; simp
  | cons a t ih =>
    intro hp
    rw [List.pairwise_cons] at hp
    cases hfa : f a with
    | none =>
      rw [List.filterMap_cons_none hfa]
      exact ih hp.2
    | some x =>
      rw [List.filterMap_cons_some hfa]
      rw [List.pairwise_cons]
      refine ⟨?_, ih hp.2⟩
      intro y hy
      obtain ⟨b, hb, hfb⟩ := List.mem_filterMap.mp hy
      exact hf a b x y (hp.1 b hb) hfa hfb

lemma catalog_rules_ordered :
    compiledRules.Pairwise
      (fun r1 r2 => catalogIndex r1.name < catalogIndex r2.name) := by decide

lemma filterFn_eq_some {path extension : String} {n : Nat} {line : List Char}
    {rule : TextRule} {d : AnalysisResult}
    (h : (if rule.languages.any (fun lang => matches_language extension lang) then
            if reIsMatch rule.pattern line && !(is_false_positive line rule.name) then
              some (mkResult path n line rule)
            else none
          else none) = some d) :
    d = mkResult path n line rule := by
  by_cases h1 : rule.languages.any (fun lang => matches_language extension lang) = true
  · rw [if_pos h1] at h
    by_cases h2 : (reIsMatch rule.pattern line && !(is_false_positive line rule.name)) = true
    · rw [if_pos h2, Option.some_inj] at h
      exact h.symm
    · rw [if_neg h2] at h
      exact absurd h (by simp)
  · rw [if_neg h1] at h
    exact absurd h (by simp)

lemma analyzeLine_pairwise (path extension : String) (n : Nat) (line : List Char) :
    (analyzeLine path extension compiledRules n line).Pairwise
      (fun d1 d2 => d1.line = d2.line
        ∧ catalogIndex d1.rule_name < catalogIndex d2.rule_name) := by
  rw [analyzeLine_eq_filterMap]
  refine pairwise_filterMap_of _ ?_ catalog_rules_ordered
  intro a b x y hS hfa hfb
  have hx := filterFn_eq_some hfa
  have hy := filterFn_eq_some hfb
  subst hx
  subst hy
  exact ⟨rfl, hS⟩

lemma mem_analyzeLine_line_eq {path extension : String} {rules : List TextRule}
    {n : Nat} {line : List Char} {d : AnalysisResult}
    (h : d ∈ analyzeLine path extension rules n line) : d.line = n + 1 := by
  obtain ⟨rule, _, _, _, _, hd⟩ := mem_analyzeLine h
  subst hd
  rfl

lemma mem_analyzeLines_line_lb {path extension : String} {rules : List TextRule}
    {n : Nat} {ls : List (List Char)} {d : AnalysisResult}
    (h : d ∈ analyzeLines path extension rules n ls) : n + 1 ≤ d.line := by
  obtain ⟨i, line, _, _, _, hm⟩ := mem_analyzeLines h
  rw [mem_analyzeLine_line_eq hm]
  omega

lemma mem_lineBlock {path extension : String} {rules : List TextRule}
    {n : Nat} {l0 : List Char} {x : AnalysisResult}
    (hx : x ∈ (if (trimChars l0).isEmpty then ([] : List AnalysisResult)
        else if is_comment_line (trimChars l0) extension then []
        else analyzeLine path extension rules n (trimChars l0))) :
    x ∈ analyzeLine path extension rules n (trimChars l0) := by
  by_cases he : (trimChars l0).isEmpty = true
  · rw [if_pos he] at hx
    simp at hx
  · rw [if_neg he] at hx
    by_cases hc : is_comment_line (trimChars l0) extension = true
    · rw [if_pos hc] at hx
      simp at hx
    · rwa [if_neg hc] at hx

lemma analyzeLines_pairwise (path extension : String) :
    ∀ (n : Nat) (ls : List (List Char)),
      (analyzeLines path extension compiledRules n ls).Pairwise diagOrder := by
  intro n ls
  induction ls generalizing n with
  | nil => simp [analyzeLines]
  | cons l0 rest ih =>
    rw [analyzeLines]
    rw [List.pairwise_append]
    refine ⟨?_, ih (n + 1), ?_⟩
    · by_cases he : (trimChars l0).isEmpty = true
      · simp [he]
      · by_cases hc : is_comment_line (trimChars l0) extension = true
        · simp [he, hc]
        · simp only [he, hc, if_false, Bool.false_eq_true]
          refine List.Pairwise.imp ?_ (analyzeLine_pairwise path extension n (trimChars l0))
          intro d1 d2 h12
          exact Or.inr h12
    · intro x hx y hy
      have hx' : x.line = n + 1 := mem_analyzeLine_line_eq (mem_lineBlock hx)
      have hy' : n + 1 + 1 ≤ y.line := mem_analyzeLines_line_lb hy
      exact Or.inl (by omega)

lemma analyze_entries_eq_flatten (rules : List TextRule) (entries : List DirEntry)
    (ig : List String) :
    analyze_entries rules entries ig
      = (entries.map (fun e => if e.is_file && !(should_ignore e.path ig) then
          analyze_file e.path e.ext e.content rules else [])).flatten := by
  induction entries with
  | nil => rfl
  | cons e rest ih =>
    rw [analyze_entries, List.map_cons, List.flatten_cons, ih]
    congr 1
    cases hf : e.is_file <;> cases hg : should_ignore e.path ig <;> simp [hf, hg]

lemma analyze_file_file_eq {p e : String} {c : Option String} {rules : List TextRule}
    {d : AnalysisResult} (h : d ∈ analyze_file p e c rules) : d.file = p := by
  cases c with
  | none => simp [analyze_file] at h
  | some content =>
    obtain ⟨i, line, rule, _, _, _, _, _, _, _, hd⟩ := mem_analyze_file h
    subst hd
    rfl

/-- C9: the shipped program emits nothing — `analyze_path` panics building
the catalog (first conjunct); the emission order of the loops themselves
is as claimed: inside one file (analyzed with the nine constructible
rules) the diagnostics appear in nondecreasing line order with same-line
diagnostics in catalog order of their rules (second conjunct), and for
every rule list the entry loop's result is the concatenation of one
contiguous per-entry block (third conjunct), every diagnostic of a block
carrying that entry's path (fourth conjunct), so files are never
interleaved. -/
theorem C9_emission_order (path extRaw content : String)
    (entries : List DirEntry) (ig : List String) :
    get_text_rules = none ∧
    (analyze_file path extRaw (some content) compiledRules).Pairwise diagOrder ∧
    (∀ rules : List TextRule, analyze_entries rules entries ig
      = (entries.map (fun e => if e.is_file && !(should_ignore e.path ig) then
          analyze_file e.path e.ext e.content rules else [])).flatten) ∧
    (∀ (rules : List TextRule) (p ex : String) (c : Option String) (d : AnalysisResult),
      d ∈ analyze_file p ex c rules → d.file = p) :=
  ⟨rfl,
    analyzeLines_pairwise path (toLowerStr extRaw) 0 (rustLines content),
    fun rules => analyze_entries_eq_flatten rules entries ig,
    fun _ _ _ _ _ h => analyze_file_file_eq h⟩

/-- C9 witness: the per-file block property applied to the one diagnostic
of a concrete file. -/
theorem C9_emission_order_witness :
    (AnalysisResult.file
      ⟨"b.rs", 1, "Использование unwrap() может вызвать панику",
        Severity.Warning, "rust-unwrap", "v.unwrap();"⟩) = "b.rs" :=
  (C9_emission_order "a.rs" "rs" "" [] []).2.2.2 compiledRules "b.rs" "rs"
    (some "v.unwrap();")
    ⟨"b.rs", 1, "Использование unwrap() может вызвать панику",
      Severity.Warning, "rust-unwrap", "v.unwrap();"⟩ (by decide)
